import Mathlib

/-!
Verification of the dynamic-batching data pipeline (`sources/dataset.py`) and
the training orchestrator (`sources/learner.py`) of the
Transformer-from-Scratch repository, via a shallow embedding in Lean.

Python integers are modelled as `Nat`/`Int`, Python floats (losses) as `ℚ`
(all loss values appearing in the verified scenarios are exactly
representable), fallible operations as `Option`/`Except`, and the mutable
`Learner` object as explicit state passing.
-/

namespace TransformerFromScratch

/-! ## dataset.py — CustomBatchSampler (lines 63–85) -/

/-- Semantics of `torch.split(torch.tensor(xs), chunk_size)` on a 1-D tensor,
as a list of chunks: successive contiguous chunks of size `chunk_size`, the
final chunk possibly smaller.  PyTorch returns at least one chunk
(`num_splits = max(ceil(size / split_size), 1)` in
`aten/src/ATen/native/TensorShape.cpp`), so an empty tensor yields a single
empty chunk.  PyTorch rejects `chunk_size = 0` unless the tensor is empty; in
that unreachable corner we also return the single chunk. -/
def torchSplit (chunk_size : Nat) (xs : List Nat) : List (List Nat) :=
  if _h : xs.length ≤ chunk_size ∨ chunk_size = 0 then [xs]
  else xs.take chunk_size :: torchSplit chunk_size (xs.drop chunk_size)
termination_by xs.length
decreasing_by
  simp only [List.length_drop]
  omega

/-- `CustomBatchSampler` (dataset.py lines 63–85): holds the batch size and the
chunked list of index batches, fixed at construction.  `__iter__` shuffles
`batch_of_indices` in place with `random.shuffle` and iterates it; in the
embedding an iteration outcome is any list that is a permutation of
`batch_of_indices`. -/
structure CustomBatchSampler where
  batch_size : Nat
  batch_of_indices : List (List Nat)

/-- `CustomBatchSampler.__init__` (dataset.py lines 67–72): chunk
`range(len(dataset))` into batches of indices with `torch.split`. -/
def CustomBatchSampler.ofLen (dataset_len batch_size : Nat) : CustomBatchSampler :=
  { batch_size := batch_size
    batch_of_indices := torchSplit batch_size (List.range dataset_len) }

/-- `CustomBatchSampler.__len__` (dataset.py lines 84–85). -/
def CustomBatchSampler.len (s : CustomBatchSampler) : Nat :=
  s.batch_of_indices.length

theorem torchSplit_flatten (cs : Nat) (xs : List Nat) :
    (torchSplit cs xs).flatten = xs := by
  induction xs using torchSplit.induct cs with
  | case1 xs h =>
    rw [torchSplit, dif_pos h]
    simp
  | case2 xs h ih =>
    rw [torchSplit, dif_neg h]
    rw [List.flatten_cons, ih, List.take_append_drop]

theorem torchSplit_length (cs : Nat) (hcs : 1 ≤ cs) (xs : List Nat) :
    xs ≠ [] → (torchSplit cs xs).length = (xs.length + cs - 1) / cs := by
  induction xs using torchSplit.induct cs with
  | case1 xs h =>
    intro hne
    rw [torchSplit, dif_pos h]
    have h1 : 1 ≤ xs.length := List.length_pos.mpr hne
    rcases h with h | h
    · have e : xs.length + cs - 1 = (xs.length - 1) + cs := by omega
      rw [List.length_singleton, e, Nat.add_div_right _ (by omega),
        Nat.div_eq_of_lt (by omega)]
    · omega
  | case2 xs h ih =>
    intro _
    rw [torchSplit, dif_neg h]
    push_neg at h
    obtain ⟨hgt, hcs0⟩ := h
    have hdropne : xs.drop cs ≠ [] := by
      rw [← List.length_pos, List.length_drop]
      omega
    rw [List.length_cons, ih hdropne, List.length_drop]
    have e1 : xs.length - cs + cs - 1 = xs.length - 1 := by omega
    have e2 : xs.length + cs - 1 = (xs.length - 1) + cs := by omega
    rw [e1, e2, Nat.add_div_right _ (by omega)]

/-- Closed form for the `i`-th chunk produced by `torch.split`: the contiguous
slice `xs[i * cs : i * cs + cs]`. -/
theorem torchSplit_getD (cs : Nat) (hcs : 1 ≤ cs) (xs : List Nat) :
    ∀ i, i < (torchSplit cs xs).length →
      (torchSplit cs xs).getD i [] = (xs.drop (i * cs)).take cs := by
  induction xs using torchSplit.induct cs with
  | case1 xs h =>
    intro i hi
    rw [torchSplit, dif_pos h] at hi ⊢
    simp only [List.length_singleton] at hi
    have hi0 : i = 0 := by omega
    subst hi0
    rcases h with h | h
    · simp [List.take_of_length_le h]
    · omega
  | case2 xs h ih =>
    intro i hi
    rw [torchSplit, dif_neg h] at hi ⊢
    match i with
    | 0 => simp
    | i + 1 =>
      rw [List.length_cons] at hi
      have hi' : i < (torchSplit cs (xs.drop cs)).length := by omega
      show (torchSplit cs (xs.drop cs)).getD i [] = _
      rw [ih i hi', List.drop_drop]
      have e : cs + i * cs = (i + 1) * cs := by ring
      rw [e]

/-- Every chunk produced by `torch.split` is a sublist of the input. -/
theorem torchSplit_sublist (cs : Nat) (xs : List Nat) :
    ∀ c ∈ torchSplit cs xs, c.Sublist xs := by
  induction xs using torchSplit.induct cs with
  | case1 xs h =>
    intro c hc
    rw [torchSplit, dif_pos h] at hc
    simp only [List.mem_singleton] at hc
    exact hc ▸ List.Sublist.refl xs
  | case2 xs h ih =>
    intro c hc
    rw [torchSplit, dif_neg h] at hc
    rcases List.mem_cons.mp hc with hc | hc
    · exact hc ▸ List.take_sublist cs xs
    · exact (ih c hc).trans (List.drop_sublist cs xs)

/-- On a non-empty input, every chunk produced by `torch.split` is non-empty. -/
theorem torchSplit_ne_nil (cs : Nat) (xs : List Nat) (hxs : xs ≠ []) :
    ∀ c ∈ torchSplit cs xs, c ≠ [] := by
  induction xs using torchSplit.induct cs with
  | case1 xs h =>
    intro c hc
    rw [torchSplit, dif_pos h] at hc
    simp only [List.mem_singleton] at hc
    exact hc ▸ hxs
  | case2 xs h ih =>
    intro c hc
    push_neg at h
    rw [torchSplit, dif_neg (by push_neg; exact h)] at hc
    have hlen : cs < xs.length := h.1
    rcases List.mem_cons.mp hc with hc | hc
    · subst hc
      rw [← List.length_pos, List.length_take]
      omega
    · refine ih ?_ c hc
      rw [← List.length_pos, List.length_drop]
      omega

/-- The chunk list built from a non-empty index range has no duplicate
chunks: its flattening is the duplicate-free range, so distinct positions
hold disjoint — hence distinct — non-empty chunks. -/
theorem torchSplit_range_nodup (cs len : Nat) (hlen : 1 ≤ len) :
    (torchSplit cs (List.range len)).Nodup := by
  have hne : List.range len ≠ [] := by
    rw [← List.length_pos, List.length_range]
    omega
  have hflat : (torchSplit cs (List.range len)).flatten = List.range len :=
    torchSplit_flatten cs (List.range len)
  have hnd : (torchSplit cs (List.range len)).flatten.Nodup := by
    rw [hflat]; exact List.nodup_range len
  obtain ⟨-, hdisj⟩ := List.nodup_flatten.mp hnd
  refine List.Pairwise.imp_of_mem ?_ hdisj
  intro a b ha hb hab
  intro heq
  subst heq
  obtain ⟨x, hx⟩ := List.exists_mem_of_ne_nil a
    (torchSplit_ne_nil cs (List.range len) hne a ha)
  exact hab hx hx

/-- An outer permutation of a list of lists induces a permutation of the
flattenings. -/
theorem flatten_perm_of_perm {α : Type} {l₁ l₂ : List (List α)}
    (h : l₁.Perm l₂) : l₁.flatten.Perm l₂.flatten := by
  induction h with
  | nil => exact List.Perm.refl _
  | cons x _ ih => simpa using ih.append_left x
  | swap x y l =>
    simp only [List.flatten_cons]
    rw [← List.append_assoc, ← List.append_assoc]
    exact List.Perm.append_right l.flatten List.perm_append_comm
  | trans _ _ ih₁ ih₂ => exact ih₁.trans ih₂

/-! ## dataset.py — pad_collate_fn (lines 148–157) -/

/-- The per-batch maximum sequence length computed by
`torch.nn.utils.rnn.pad_sequence`. -/
def padMaxLen (seqs : List (List Nat)) : Nat :=
  (seqs.map List.length).foldr max 0

/-- `pad_sequence(seqs, batch_first=True, padding_value=0)`: right-pads every
sequence with the pad id 0 up to the batch's own maximum length.  PyTorch
raises `RuntimeError: received an empty list of sequences` on an empty input,
modelled as `none`. -/
def pad_sequence (seqs : List (List Nat)) : Option (List (List Nat)) :=
  match seqs with
  | [] => none
  | _ :: _ =>
    some (seqs.map (fun s => s ++ List.replicate (padMaxLen seqs - s.length) 0))

/-- `pad_collate_fn` (dataset.py lines 148–157): splits the batch of
(source, target) pairs into the two sentence lists and pads each list
independently with `pad_sequence`. -/
def pad_collate_fn (batch : List (List Nat × List Nat)) :
    Option (List (List Nat) × List (List Nat)) :=
  let src_sentences := batch.map Prod.fst
  let trg_sentences := batch.map Prod.snd
  match pad_sequence src_sentences, pad_sequence trg_sentences with
  | some src, some trg => some (src, trg)
  | _, _ => none

/-- A `DataLoader` batch fetch under a batch sampler:
`[dataset[i] for i in idxs]`, which is then handed to the collate function. -/
def fetchBatch (dataset : List (List Nat × List Nat)) (idxs : List Nat) :
    List (List Nat × List Nat) :=
  idxs.filterMap (fun i => dataset[i]?)

theorem length_le_padMaxLen {s : List Nat} {seqs : List (List Nat)}
    (h : s ∈ seqs) : s.length ≤ padMaxLen seqs := by
  induction seqs with
  | nil => cases h
  | cons t ts ih =>
    rcases List.mem_cons.mp h with h | h
    · subst h
      exact le_max_left _ _
    · exact (ih h).trans (le_max_right _ _)

/-! ## dataset.py — tokenizer selection in get_translation_dataloaders
(lines 123–134) -/

/-- Tokenizer values that can flow through `get_translation_dataloaders`,
tagged by how they were obtained. -/
inductive TokenizerV where
  | wordlevel (vocab_size : Nat)
  | bpe (vocab_size : Nat)
  | pretrained (path : String)
deriving DecidableEq

/-- Errors of the pipeline-setup phase.  `unboundLocalError` models a Python
`UnboundLocalError` (use of a local variable no branch assigned);
`configValidationError` stands for a dedicated configuration-validation
failure, which the source never raises — it exists so that the two failure
modes are distinguishable in statements. -/
inductive PipelineError where
  | unboundLocalError (varName : String)
  | configValidationError (msg : String)
deriving DecidableEq

/-- The tokenizer-selection phase of `get_translation_dataloaders`
(dataset.py lines 123–134).  The `if tokenizer_type == 'wordlevel' / elif
'bpe'` chain leaves the local `tokenizer` unassigned on any other tag
(`none`); a configured pretrained-tokenizer path overrides it; otherwise
`tokenizer.save(...)` runs, raising `UnboundLocalError` when no branch
assigned the variable.  The result is the tokenizer handed to the rest of
the pipeline. -/
def tokenizerPhase (tokenizer_type : String) (vocab_size : Nat)
    (pretrain_tokenizer_pt : Option String) : Except PipelineError TokenizerV :=
  let tok? : Option TokenizerV :=
    if tokenizer_type = "wordlevel" then some (TokenizerV.wordlevel vocab_size)
    else if tokenizer_type = "bpe" then some (TokenizerV.bpe vocab_size)
    else none
  match pretrain_tokenizer_pt with
  | some path => Except.ok (TokenizerV.pretrained path)
  | none =>
    match tok? with
    | some tok => Except.ok tok
    | none => Except.error (PipelineError.unboundLocalError "tokenizer")

/-! ## learner.py — Learner as an explicit state machine

The neural network, optimizer, scheduler, tokenizer and the wandb backend are
external collaborators; the embedding keeps the observable orchestration
state.  Model parameters (`state_dict` values) have an abstract type `P`; an
epoch's parameter evolution (driven by autograd and the optimizer) enters as
an external input.  Losses are exact rationals.  The text columns of the
example-tracking table are elided; each row keeps its (epoch, split) tags. -/

/-- Split tag of an example-tracking table row. -/
inductive Split where
  | train
  | validation
deriving DecidableEq

/-- The configuration fields consumed by `Learner`. -/
structure TrainConfig where
  GRAD_ACCUMULATION_STEPS : Nat
  MODEL_SAVE_EPOCH_CNT : Nat
  hasScheduler : Bool

/-- The mutable state a `Learner` instance carries across epochs.
`best_val_loss = none` models the `float('inf')` initializer; `grad_accum`
counts the backward passes whose gradients are currently accumulated (0 right
after `optimizer.zero_grad()`); `live_params` is the live model's
`state_dict()`. -/
structure LearnerState (P : Type) where
  training_step : Nat
  global_step : Nat
  grad_accum : Nat
  optimizer_steps : Nat
  scheduler_steps : Nat
  checkpoints : Nat
  best_val_loss : Option ℚ
  best_model_state_dict : P
  live_params : P
  table : List (Nat × Split)
  flushes : Nat

/-- `Learner.__init__` (learner.py lines 25–28), with live parameters `p`:
`training_step = 1`, `global_step = 1`, `best_val_loss = float('inf')`,
`best_model_state_dict = copy.deepcopy(model.state_dict())`. -/
def initState {P : Type} (p : P) : LearnerState P :=
  { training_step := 1
    global_step := 1
    grad_accum := 0
    optimizer_steps := 0
    scheduler_steps := 0
    checkpoints := 0
    best_val_loss := none
    best_model_state_dict := p
    live_params := p
    table := []
    flushes := 0 }

/-- The comparison `loss_avg < self.best_val_loss` with `best_val_loss`
initialized to `float('inf')` (`none`). -/
def ltInf (x : ℚ) : Option ℚ → Bool
  | none => true
  | some b => decide (x < b)

/-- The body of the `training_epoch` batch loop (learner.py lines 126–148):
`loss.backward()` adds the batch's gradients; when
`training_step % GRAD_ACCUMULATION_STEPS == 0` the optimizer steps, the
scheduler steps when present, and gradients are zeroed; then the wandb log
advances `global_step` and `training_step` advances, both unconditionally. -/
def processBatch {P : Type} (cfg : TrainConfig) (s : LearnerState P) :
    LearnerState P :=
  let s1 := { s with grad_accum := s.grad_accum + 1 }
  let s2 :=
    if s1.training_step % cfg.GRAD_ACCUMULATION_STEPS = 0 then
      { s1 with
        optimizer_steps := s1.optimizer_steps + 1
        scheduler_steps := s1.scheduler_steps + (if cfg.hasScheduler then 1 else 0)
        grad_accum := 0 }
    else s1
  { s2 with
    global_step := s2.global_step + 1
    training_step := s2.training_step + 1 }

/-- `loss_avg = loss_sum / len(dataloader)` where the dataloader yields one
loss per batch. -/
def lossAvg (losses : List ℚ) : ℚ :=
  losses.sum / losses.length

/-- `Learner.training_epoch` (learner.py lines 122–166): the batch loop over
the epoch's per-batch losses, the epoch-summary wandb log (one more
`global_step` advance), the checkpoint save on the
`epoch % MODEL_SAVE_EPOCH_CNT == 0` cadence, and the best-model update:
when `loss_avg < best_val_loss` the best loss and the deep-copied parameter
snapshot are replaced.  `params_at_end` is the live `state_dict` as left by
the epoch's optimizer updates. -/
def training_epoch {P : Type} (cfg : TrainConfig) (epoch : Nat)
    (losses : List ℚ) (params_at_end : P) (s : LearnerState P) :
    LearnerState P :=
  let s1 := losses.foldl (fun acc _ => processBatch cfg acc) s
  let s2 := { s1 with live_params := params_at_end }
  let loss_avg := lossAvg losses
  let s3 := { s2 with global_step := s2.global_step + 1 }
  let s4 :=
    if epoch % cfg.MODEL_SAVE_EPOCH_CNT = 0 then
      { s3 with checkpoints := s3.checkpoints + 1 }
    else s3
  if ltInf loss_avg s4.best_val_loss then
    { s4 with
      best_val_loss := some loss_avg
      best_model_state_dict := s4.live_params }
  else s4

/-- `Learner.validation_epoch` (learner.py lines 72–118): evaluation mode, no
gradient computation; per validation batch the wandb log advances
`global_step` by 1 (line 93), and the epoch-summary log advances it once more
(line 116). -/
def validation_epoch {P : Type} (num_batches : Nat) (s : LearnerState P) :
    LearnerState P :=
  let s1 := (List.range num_batches).foldl
    (fun acc _ => { acc with global_step := acc.global_step + 1 }) s
  { s1 with global_step := s1.global_step + 1 }

/-- The row indices visited by `for i in range(batch_rows): if i ==
num_examples: break` (learner.py lines 37–39 and 56–58). -/
def trackRows (batch_rows num_examples : Nat) : List Nat :=
  (List.range batch_rows).takeWhile (fun i => i != num_examples)

/-- `Learner.track_example` (learner.py lines 30–69): appends one table row
per visited row of the first train batch, then one per visited row of the
first validation batch. -/
def track_example {P : Type} (epoch : Nat)
    (train_batch_rows val_batch_rows num_examples : Nat)
    (s : LearnerState P) : LearnerState P :=
  let s1 := { s with
    table := s.table ++
      (trackRows train_batch_rows num_examples).map (fun _ => (epoch, Split.train)) }
  { s1 with
    table := s1.table ++
      (trackRows val_batch_rows num_examples).map (fun _ => (epoch, Split.validation)) }

/-- The external inputs of one epoch of `fit`: the sizes of the first batches
drawn for example tracking, the number of validation batches, the per-batch
training losses, and the model parameters as left by the epoch's optimizer
updates. -/
structure EpochData (P : Type) where
  train_batch_rows : Nat
  val_batch_rows : Nat
  val_batches : Nat
  train_losses : List ℚ
  params_at_end : P

/-- The epoch loop of `Learner.fit` (learner.py lines 173–176):
`for epoch_idx in range(start_epoch, start_epoch + n_epochs):
track_example; validation_epoch; training_epoch`. -/
def fitLoop {P : Type} (cfg : TrainConfig) (num_examples : Nat) :
    Nat → List (EpochData P) → LearnerState P → LearnerState P
  | _, [], s => s
  | epoch, d :: ds, s =>
    fitLoop cfg num_examples (epoch + 1) ds
      (training_epoch cfg epoch d.train_losses d.params_at_end
        (validation_epoch d.val_batches
          (track_example epoch d.train_batch_rows d.val_batch_rows num_examples s)))

/-- `Learner.fit` (learner.py lines 169–178): a fresh tracking table, the
epoch loop, and the single final `wandb.log({'Tracking': self.table})` flush.
The source fixes `num_examples = 2` at the call site (line 174); it is kept
as a parameter. -/
def fit {P : Type} (cfg : TrainConfig) (num_examples start_epoch : Nat)
    (epochs : List (EpochData P)) (s : LearnerState P) : LearnerState P :=
  let s1 := { s with table := [] }
  let s2 := fitLoop cfg num_examples start_epoch epochs s1
  { s2 with flushes := s2.flushes + 1 }

/-! ## Claim theorems -/

/-- Claim C1, counterexample: for a dataset partition of size 0 (legal after length
filtering) and batch size 1, the sampler's `__len__` reports 1 batch —
`torch.split` returns one empty chunk — not `ceil(0 / 1) = 0` as the claim
requires for every partition size. -/
theorem C1_partition_cex :
    (CustomBatchSampler.ofLen 0 1).len ≠ (0 + 1 - 1) / 1 := by
  have h : (CustomBatchSampler.ofLen 0 1).len = 1 := by
    simp [CustomBatchSampler.ofLen, CustomBatchSampler.len, torchSplit]
  rw [h]
  decide

/-- Claim C1 (amended to partitions of size ≥ 1; at size 0 the sampler instead
reports one empty batch): construction partitions the index range [0, len)
into contiguous chunks of size `batch_size` (chunk `i` is the slice
`range(len)[i*bs : i*bs + bs]`, so the final chunk may be smaller),
`__len__` reports exactly `ceil(len / batch_size)` batches, and one full
iteration — any permutation `p` of the chunk list, which is what
`random.shuffle` produces — yields each chunk exactly once and visits every
index in [0, len) exactly once, with no duplicates and no omissions. -/
theorem C1_sampler_partitions_indices (len bs : Nat) (hbs : 1 ≤ bs)
    (hlen : 1 ≤ len) :
    (CustomBatchSampler.ofLen len bs).len = (len + bs - 1) / bs ∧
    (CustomBatchSampler.ofLen len bs).batch_of_indices.flatten = List.range len ∧
    (∀ i, i < (CustomBatchSampler.ofLen len bs).len →
      (CustomBatchSampler.ofLen len bs).batch_of_indices.getD i [] =
        ((List.range len).drop (i * bs)).take bs ∧
      ((CustomBatchSampler.ofLen len bs).batch_of_indices.getD i []).length =
        min bs (len - i * bs)) ∧
    (∀ p : List (List Nat),
      p.Perm (CustomBatchSampler.ofLen len bs).batch_of_indices →
      p.Nodup ∧
      (∀ c, c ∈ p ↔ c ∈ (CustomBatchSampler.ofLen len bs).batch_of_indices) ∧
      p.flatten.Nodup ∧
      (∀ i, i ∈ p.flatten ↔ i < len)) := by
  have hrange_ne : List.range len ≠ [] := by
    rw [← List.length_pos, List.length_range]; omega
  simp only [CustomBatchSampler.ofLen, CustomBatchSampler.len]
  refine ⟨?_, torchSplit_flatten bs _, ?_, ?_⟩
  · rw [torchSplit_length bs hbs _ hrange_ne, List.length_range]
  · intro i hi
    refine ⟨torchSplit_getD bs hbs _ i hi, ?_⟩
    rw [torchSplit_getD bs hbs _ i hi, List.length_take, List.length_drop,
      List.length_range]
  · intro p hp
    have hpf : p.flatten.Perm (List.range len) := by
      have hf := flatten_perm_of_perm hp
      rwa [torchSplit_flatten] at hf
    refine ⟨?_, ?_, ?_, ?_⟩
    · exact hp.nodup_iff.mpr (torchSplit_range_nodup bs len hlen)
    · intro c
      exact hp.mem_iff
    · exact hpf.nodup_iff.mpr (List.nodup_range len)
    · intro i
      rw [hpf.mem_iff, List.mem_range]

/-- Claim C1, witness: the amended theorem applied to a partition of size 5 with
batch size 2 and the shuffled iteration [[2,3],[4],[0,1]]. -/
theorem C1_sampler_partitions_indices_witness :
    (CustomBatchSampler.ofLen 5 2).len = (5 + 2 - 1) / 2 ∧
    ([[2, 3], [4], [0, 1]] : List (List Nat)).flatten.Nodup ∧
    (3 ∈ ([[2, 3], [4], [0, 1]] : List (List Nat)).flatten ↔ 3 < 5) := by
  have hperm : ([[2, 3], [4], [0, 1]] : List (List Nat)).Perm
      (CustomBatchSampler.ofLen 5 2).batch_of_indices := by
    have h : (CustomBatchSampler.ofLen 5 2).batch_of_indices =
        [[0, 1], [2, 3], [4]] := by
      simp [CustomBatchSampler.ofLen, torchSplit]
      decide
    rw [h]
    decide
  exact ⟨(C1_sampler_partitions_indices 5 2 (by decide) (by decide)).1,
    ((C1_sampler_partitions_indices 5 2 (by decide) (by decide)).2.2.2
      [[2, 3], [4], [0, 1]] hperm).2.2.1,
    ((C1_sampler_partitions_indices 5 2 (by decide) (by decide)).2.2.2
      [[2, 3], [4], [0, 1]] hperm).2.2.2 3⟩

/-- Claim C5: for every non-empty batch of (source_ids, target_ids) pairs the
collator returns the source rows and target rows padded independently, each
row being its original tokens followed by pad ids 0 up to the respective
per-batch maximum length (so originals survive as an unchanged prefix and
padding never truncates), with one output row per input pair, every source
row of length `padMaxLen` of the sources and every target row of length
`padMaxLen` of the targets; on source lengths [3,5,2] the source tensor is
3×5 and the length-2 row ends in exactly 3 pad ids 0. -/
theorem C5_pad_collate_shapes (b : List Nat × List Nat)
    (rest : List (List Nat × List Nat)) :
    (pad_collate_fn (b :: rest) =
      some (((b :: rest).map Prod.fst).map
              (fun s =>
                s ++ List.replicate
                  (padMaxLen ((b :: rest).map Prod.fst) - s.length) 0),
            ((b :: rest).map Prod.snd).map
              (fun s =>
                s ++ List.replicate
                  (padMaxLen ((b :: rest).map Prod.snd) - s.length) 0))) ∧
    (((b :: rest).map Prod.fst).map
        (fun s =>
          s ++ List.replicate
            (padMaxLen ((b :: rest).map Prod.fst) - s.length) 0)).length =
      (b :: rest).length ∧
    (((b :: rest).map Prod.snd).map
        (fun s =>
          s ++ List.replicate
            (padMaxLen ((b :: rest).map Prod.snd) - s.length) 0)).length =
      (b :: rest).length ∧
    (∀ r ∈ ((b :: rest).map Prod.fst).map
        (fun s =>
          s ++ List.replicate
            (padMaxLen ((b :: rest).map Prod.fst) - s.length) 0),
      r.length = padMaxLen ((b :: rest).map Prod.fst)) ∧
    (∀ r ∈ ((b :: rest).map Prod.snd).map
        (fun s =>
          s ++ List.replicate
            (padMaxLen ((b :: rest).map Prod.snd) - s.length) 0),
      r.length = padMaxLen ((b :: rest).map Prod.snd)) ∧
    pad_collate_fn [([1, 2, 3], [7]), ([4, 5, 6, 7, 8], [7]), ([9, 10], [7])] =
      some ([[1, 2, 3, 0, 0], [4, 5, 6, 7, 8], [9, 10, 0, 0, 0]],
            [[7], [7], [7]]) ∧
    [9, 10, 0, 0, 0] = [9, 10] ++ List.replicate 3 (0 : Nat) := by
  refine ⟨rfl, by simp, by simp, ?_, ?_, by decide, by decide⟩
  · intro r hr
    obtain ⟨s, hs, hrs⟩ := List.mem_map.mp hr
    subst hrs
    rw [List.length_append, List.length_replicate]
    have hle : s.length ≤ padMaxLen ((b :: rest).map Prod.fst) :=
      length_le_padMaxLen hs
    omega
  · intro r hr
    obtain ⟨s, hs, hrs⟩ := List.mem_map.mp hr
    subst hrs
    rw [List.length_append, List.length_replicate]
    have hle : s.length ≤ padMaxLen ((b :: rest).map Prod.snd) :=
      length_le_padMaxLen hs
    omega

/-- Claim C6: for one sampler instance, any two iterations (each a fresh
in-place `random.shuffle`, hence a permutation of the chunk list — the second
shuffling the already-shuffled list is still one) carry the identical
multiset of chunks; every chunk an iteration yields is literally a
construction chunk, with its indices in sorted (strictly increasing) order —
the shuffle permutes the order of chunks only, never their contents. -/
theorem C6_iteration_chunks_invariant (len bs : Nat) (it1 it2 : List (List Nat))
    (h1 : it1.Perm (CustomBatchSampler.ofLen len bs).batch_of_indices)
    (h2 : it2.Perm (CustomBatchSampler.ofLen len bs).batch_of_indices) :
    (it1 : Multiset (List Nat)) = (it2 : Multiset (List Nat)) ∧
    (∀ c ∈ it1, c ∈ (CustomBatchSampler.ofLen len bs).batch_of_indices ∧
      c.Pairwise (· < ·)) := by
  constructor
  · exact Multiset.coe_eq_coe.mpr (h1.trans h2.symm)
  · intro c hc
    have hmem : c ∈ (CustomBatchSampler.ofLen len bs).batch_of_indices :=
      h1.mem_iff.mp hc
    refine ⟨hmem, ?_⟩
    have hsub : c.Sublist (List.range len) := torchSplit_sublist bs _ c hmem
    exact List.Pairwise.sublist hsub (List.sorted_lt_range len)

/-- Claim C6, witness: two concrete iterations over the sampler of a size-5
partition with batch size 2. -/
theorem C6_iteration_chunks_invariant_witness :
    (([[2, 3], [4], [0, 1]] : List (List Nat)) : Multiset (List Nat)) =
      (([[4], [0, 1], [2, 3]] : List (List Nat)) : Multiset (List Nat)) ∧
    (∀ c ∈ ([[2, 3], [4], [0, 1]] : List (List Nat)),
      c ∈ (CustomBatchSampler.ofLen 5 2).batch_of_indices ∧
      c.Pairwise (· < ·)) := by
  have h : (CustomBatchSampler.ofLen 5 2).batch_of_indices =
      [[0, 1], [2, 3], [4]] := by
    simp [CustomBatchSampler.ofLen, torchSplit]
    decide
  exact C6_iteration_chunks_invariant 5 2 [[2, 3], [4], [0, 1]]
    [[4], [0, 1], [2, 3]] (by rw [h]; decide) (by rw [h]; decide)

/-- Claim C7, counterexample: when filtering leaves a partition with zero
examples, sampler construction succeeds (no "no data" failure at setup): it
holds a single empty batch and `__len__` reports 1.  The failure surfaces
only downstream, when the empty batch reaches the Padding Collator, which
rejects an empty sequence list. -/
theorem C7_empty_partition_cex :
    (CustomBatchSampler.ofLen 0 2).batch_of_indices = [[]] ∧
    (CustomBatchSampler.ofLen 0 2).len = 1 ∧
    pad_collate_fn [] = none := by
  refine ⟨?_, ?_, rfl⟩ <;>
    simp [CustomBatchSampler.ofLen, CustomBatchSampler.len, torchSplit]

/-- Claim C7 (amended): with a partition of zero examples, for every batch
size the sampler constructs successfully with exactly one empty batch (so an
epoch is not silently empty — it contains one batch); fetching that batch
yields the empty sample list, and the run fails when the Padding Collator
rejects it (`pad_sequence` raises on an empty list) — i.e. at the first
batch materialization of the first epoch, before any training step, not with
a dedicated "no data" error at sampler setup. -/
theorem C7_empty_partition_fails_at_collate (bs : Nat)
    (dataset : List (List Nat × List Nat)) :
    (CustomBatchSampler.ofLen 0 bs).batch_of_indices = [[]] ∧
    (CustomBatchSampler.ofLen 0 bs).len = 1 ∧
    fetchBatch dataset [] = [] ∧
    pad_collate_fn (fetchBatch dataset []) = none := by
  refine ⟨?_, ?_, rfl, rfl⟩ <;>
    simp [CustomBatchSampler.ofLen, CustomBatchSampler.len, torchSplit]

/-! ## Supporting lemmas about the Learner state machine -/

theorem processBatch_fields {P : Type} (cfg : TrainConfig) (s : LearnerState P) :
    (processBatch cfg s).training_step = s.training_step + 1 ∧
    (processBatch cfg s).global_step = s.global_step + 1 ∧
    (processBatch cfg s).checkpoints = s.checkpoints ∧
    (processBatch cfg s).best_val_loss = s.best_val_loss ∧
    (processBatch cfg s).best_model_state_dict = s.best_model_state_dict ∧
    (processBatch cfg s).live_params = s.live_params ∧
    (processBatch cfg s).table = s.table ∧
    (processBatch cfg s).flushes = s.flushes := by
  by_cases h : s.training_step % cfg.GRAD_ACCUMULATION_STEPS = 0 <;>
    simp [processBatch, h]

theorem foldl_processBatch_fields {P : Type} (cfg : TrainConfig)
    (losses : List ℚ) (s : LearnerState P) :
    (losses.foldl (fun acc _ => processBatch cfg acc) s).training_step =
      s.training_step + losses.length ∧
    (losses.foldl (fun acc _ => processBatch cfg acc) s).global_step =
      s.global_step + losses.length ∧
    (losses.foldl (fun acc _ => processBatch cfg acc) s).checkpoints =
      s.checkpoints ∧
    (losses.foldl (fun acc _ => processBatch cfg acc) s).best_val_loss =
      s.best_val_loss ∧
    (losses.foldl (fun acc _ => processBatch cfg acc) s).best_model_state_dict =
      s.best_model_state_dict ∧
    (losses.foldl (fun acc _ => processBatch cfg acc) s).table = s.table ∧
    (losses.foldl (fun acc _ => processBatch cfg acc) s).flushes = s.flushes := by
  induction losses generalizing s with
  | nil => simp
  | cons a l ih =>
    simp only [List.foldl_cons, List.length_cons]
    obtain ⟨i1, i2, i3, i4, i5, i6, i7⟩ := ih (processBatch cfg s)
    obtain ⟨p1, p2, p3, p4, p5, p6, p7, p8⟩ := processBatch_fields cfg s
    refine ⟨?_, ?_, ?_, ?_, ?_, ?_, ?_⟩ <;>
      simp only [i1, i2, i3, i4, i5, i6, i7, p1, p2, p3, p4, p5, p6, p7, p8] <;>
      omega

theorem training_epoch_fields {P : Type} (cfg : TrainConfig) (e : Nat)
    (losses : List ℚ) (p : P) (s : LearnerState P) :
    (training_epoch cfg e losses p s).training_step =
      s.training_step + losses.length ∧
    (training_epoch cfg e losses p s).global_step =
      s.global_step + losses.length + 1 ∧
    (training_epoch cfg e losses p s).live_params = p ∧
    (training_epoch cfg e losses p s).table = s.table ∧
    (training_epoch cfg e losses p s).flushes = s.flushes := by
  obtain ⟨f1, f2, f3, f4, f5, f6, f7⟩ := foldl_processBatch_fields cfg losses s
  by_cases h1 : e % cfg.MODEL_SAVE_EPOCH_CNT = 0 <;>
    by_cases h2 : ltInf (lossAvg losses) s.best_val_loss = true <;>
    simp [training_epoch, h1, h2, f1, f2, f3, f4, f5, f6, f7]

theorem validation_epoch_fields {P : Type} (n : Nat) (s : LearnerState P) :
    (validation_epoch n s).training_step = s.training_step ∧
    (validation_epoch n s).global_step = s.global_step + n + 1 ∧
    (validation_epoch n s).grad_accum = s.grad_accum ∧
    (validation_epoch n s).optimizer_steps = s.optimizer_steps ∧
    (validation_epoch n s).scheduler_steps = s.scheduler_steps ∧
    (validation_epoch n s).checkpoints = s.checkpoints ∧
    (validation_epoch n s).best_val_loss = s.best_val_loss ∧
    (validation_epoch n s).best_model_state_dict = s.best_model_state_dict ∧
    (validation_epoch n s).live_params = s.live_params ∧
    (validation_epoch n s).table = s.table ∧
    (validation_epoch n s).flushes = s.flushes := by
  have key : ∀ (l : List Nat) (t : LearnerState P),
      l.foldl (fun acc _ => { acc with global_step := acc.global_step + 1 }) t =
        { t with global_step := t.global_step + l.length } := by
    intro l
    induction l with
    | nil => intro t; simp
    | cons a l ih =>
      intro t
      simp only [List.foldl_cons, ih, List.length_cons]
      congr 1
      omega
  simp [validation_epoch, key]

theorem takeWhile_bne_range'_length (ne a n : Nat) :
    ((List.range' a n).takeWhile (fun i => i != ne)).length =
      if ne < a then n else min (ne - a) n := by
  induction n generalizing a with
  | zero => simp
  | succ n ih =>
    rw [List.range'_succ, List.takeWhile_cons]
    by_cases h : a = ne
    · subst h
      simp
    · have hb : (a != ne) = true := by
        simp [h]
      simp only [hb, if_true, List.length_cons, ih (a + 1)]
      split <;> split <;> omega

theorem trackRows_length (rows ne : Nat) :
    (trackRows rows ne).length = min ne rows := by
  rw [trackRows, List.range_eq_range', takeWhile_bne_range'_length]
  simp

theorem track_example_fields {P : Type} (e tr vr ne : Nat)
    (s : LearnerState P) :
    (track_example e tr vr ne s).table.length =
      s.table.length + (min ne tr + min ne vr) ∧
    (track_example e tr vr ne s).training_step = s.training_step ∧
    (track_example e tr vr ne s).global_step = s.global_step ∧
    (track_example e tr vr ne s).grad_accum = s.grad_accum ∧
    (track_example e tr vr ne s).optimizer_steps = s.optimizer_steps ∧
    (track_example e tr vr ne s).scheduler_steps = s.scheduler_steps ∧
    (track_example e tr vr ne s).checkpoints = s.checkpoints ∧
    (track_example e tr vr ne s).best_val_loss = s.best_val_loss ∧
    (track_example e tr vr ne s).best_model_state_dict =
      s.best_model_state_dict ∧
    (track_example e tr vr ne s).live_params = s.live_params ∧
    (track_example e tr vr ne s).flushes = s.flushes := by
  simp [track_example, trackRows_length]

theorem succ_mod_of_ne_zero {A T : Nat} (h : ¬ (T + 1) % A = 0) :
    (T + 1) % A = T % A + 1 := by
  match A with
  | 0 => simp
  | 1 => simp [Nat.mod_one] at h
  | A + 2 =>
    have h1A : 1 % (A + 2) = 1 := Nat.mod_eq_of_lt (by omega)
    have hTA : T % (A + 2) < A + 2 := Nat.mod_lt T (by omega)
    by_cases he : T % (A + 2) + 1 = A + 2
    · exfalso
      apply h
      rw [Nat.add_mod, h1A, he, Nat.mod_self]
    · rw [Nat.add_mod, h1A, Nat.mod_eq_of_lt (by omega)]

/-- The stepping branch of a training batch, as one structure update. -/
theorem processBatch_eq_pos {P : Type} (cfg : TrainConfig) (s : LearnerState P)
    (h : s.training_step % cfg.GRAD_ACCUMULATION_STEPS = 0) :
    processBatch cfg s =
      { s with
        training_step := s.training_step + 1
        global_step := s.global_step + 1
        grad_accum := 0
        optimizer_steps := s.optimizer_steps + 1
        scheduler_steps :=
          s.scheduler_steps + (if cfg.hasScheduler then 1 else 0) } := by
  simp [processBatch, h]

/-- The accumulating branch of a training batch, as one structure update. -/
theorem processBatch_eq_neg {P : Type} (cfg : TrainConfig) (s : LearnerState P)
    (h : ¬ s.training_step % cfg.GRAD_ACCUMULATION_STEPS = 0) :
    processBatch cfg s =
      { s with
        training_step := s.training_step + 1
        global_step := s.global_step + 1
        grad_accum := s.grad_accum + 1 } := by
  simp [processBatch, h]

/-- One batch advances the run-global counters: with `training_step = T + 1`
(T batches already processed in the run), `grad_accum = T % A` and
`optimizer_steps` offset `c`, the batch yields the same shape at `T + 1`. -/
theorem processBatch_counters {P : Type} (cfg : TrainConfig) (T c : Nat)
    (s : LearnerState P) (hts : s.training_step = T + 1)
    (hg : s.grad_accum = T % cfg.GRAD_ACCUMULATION_STEPS)
    (ho : s.optimizer_steps = c + T / cfg.GRAD_ACCUMULATION_STEPS) :
    (processBatch cfg s).training_step = (T + 1) + 1 ∧
    (processBatch cfg s).grad_accum = (T + 1) % cfg.GRAD_ACCUMULATION_STEPS ∧
    (processBatch cfg s).optimizer_steps =
      c + (T + 1) / cfg.GRAD_ACCUMULATION_STEPS := by
  by_cases h : s.training_step % cfg.GRAD_ACCUMULATION_STEPS = 0
  · have h' : (T + 1) % cfg.GRAD_ACCUMULATION_STEPS = 0 := by
      rw [← hts]; exact h
    have hdvd : cfg.GRAD_ACCUMULATION_STEPS ∣ T + 1 :=
      Nat.dvd_iff_mod_eq_zero.mpr h'
    rw [processBatch_eq_pos cfg s h]
    refine ⟨by simp [hts], by simp [h'], ?_⟩
    show s.optimizer_steps + 1 = _
    rw [ho, Nat.succ_div, if_pos hdvd, Nat.add_assoc]
  · have h' : ¬ (T + 1) % cfg.GRAD_ACCUMULATION_STEPS = 0 := by
      rw [← hts]; exact h
    have hndvd : ¬ cfg.GRAD_ACCUMULATION_STEPS ∣ T + 1 := by
      rw [Nat.dvd_iff_mod_eq_zero]; exact h'
    rw [processBatch_eq_neg cfg s h]
    refine ⟨by simp [hts], ?_, ?_⟩
    · show s.grad_accum + 1 = _
      rw [hg, ← succ_mod_of_ne_zero h']
    · show s.optimizer_steps = _
      rw [ho, Nat.succ_div, if_neg hndvd, Nat.add_zero]

theorem foldl_processBatch_counters {P : Type} (cfg : TrainConfig)
    (losses : List ℚ) (T c : Nat) (s : LearnerState P)
    (hts : s.training_step = T + 1)
    (hg : s.grad_accum = T % cfg.GRAD_ACCUMULATION_STEPS)
    (ho : s.optimizer_steps = c + T / cfg.GRAD_ACCUMULATION_STEPS) :
    (losses.foldl (fun acc _ => processBatch cfg acc) s).training_step =
      (T + losses.length) + 1 ∧
    (losses.foldl (fun acc _ => processBatch cfg acc) s).grad_accum =
      (T + losses.length) % cfg.GRAD_ACCUMULATION_STEPS ∧
    (losses.foldl (fun acc _ => processBatch cfg acc) s).optimizer_steps =
      c + (T + losses.length) / cfg.GRAD_ACCUMULATION_STEPS := by
  induction losses generalizing T s with
  | nil => simpa using ⟨hts, hg, ho⟩
  | cons a l ih =>
    simp only [List.foldl_cons, List.length_cons]
    obtain ⟨p1, p2, p3⟩ := processBatch_counters cfg T c s hts hg ho
    obtain ⟨q1, q2, q3⟩ :=
      ih (T + 1) (processBatch cfg s) p1 p2 p3
    have e : T + 1 + l.length = T + (l.length + 1) := by omega
    rw [e] at q1 q2 q3
    exact ⟨q1, q2, q3⟩

theorem training_epoch_counters {P : Type} (cfg : TrainConfig) (e : Nat)
    (losses : List ℚ) (p : P) (T c : Nat) (s : LearnerState P)
    (hts : s.training_step = T + 1)
    (hg : s.grad_accum = T % cfg.GRAD_ACCUMULATION_STEPS)
    (ho : s.optimizer_steps = c + T / cfg.GRAD_ACCUMULATION_STEPS) :
    (training_epoch cfg e losses p s).training_step =
      (T + losses.length) + 1 ∧
    (training_epoch cfg e losses p s).grad_accum =
      (T + losses.length) % cfg.GRAD_ACCUMULATION_STEPS ∧
    (training_epoch cfg e losses p s).optimizer_steps =
      c + (T + losses.length) / cfg.GRAD_ACCUMULATION_STEPS := by
  obtain ⟨q1, q2, q3⟩ := foldl_processBatch_counters cfg losses T c s hts hg ho
  have q4 := (foldl_processBatch_fields cfg losses s).2.2.2.1
  by_cases h1 : e % cfg.MODEL_SAVE_EPOCH_CNT = 0 <;>
    by_cases h2 : ltInf (lossAvg losses) s.best_val_loss = true <;>
    simp [training_epoch, h1, h2, q1, q2, q3, q4]

theorem fitLoop_counters {P : Type} (cfg : TrainConfig) (ne : Nat)
    (ds : List (EpochData P)) (st T c : Nat) (s : LearnerState P)
    (hts : s.training_step = T + 1)
    (hg : s.grad_accum = T % cfg.GRAD_ACCUMULATION_STEPS)
    (ho : s.optimizer_steps = c + T / cfg.GRAD_ACCUMULATION_STEPS) :
    (fitLoop cfg ne st ds s).training_step =
      (T + (ds.map (fun d => d.train_losses.length)).sum) + 1 ∧
    (fitLoop cfg ne st ds s).grad_accum =
      (T + (ds.map (fun d => d.train_losses.length)).sum) %
        cfg.GRAD_ACCUMULATION_STEPS ∧
    (fitLoop cfg ne st ds s).optimizer_steps =
      c + (T + (ds.map (fun d => d.train_losses.length)).sum) /
        cfg.GRAD_ACCUMULATION_STEPS := by
  induction ds generalizing st T s with
  | nil => simpa using ⟨hts, hg, ho⟩
  | cons d ds ih =>
    simp only [fitLoop, List.map_cons, List.sum_cons]
    obtain ⟨t1, t2, t3, t4, t5, t6, t7, t8, t9, t10, t11⟩ :=
      track_example_fields st d.train_batch_rows d.val_batch_rows ne s
    obtain ⟨v1, v2, v3, v4, v5, v6, v7, v8, v9, v10, v11⟩ :=
      validation_epoch_fields d.val_batches
        (track_example st d.train_batch_rows d.val_batch_rows ne s)
    obtain ⟨w1, w2, w3⟩ := training_epoch_counters cfg st d.train_losses
      d.params_at_end T c _ (by rw [v1, t2, hts]) (by rw [v3, t4, hg])
      (by rw [v4, t5, ho])
    obtain ⟨q1, q2, q3⟩ := ih (st + 1) (T + d.train_losses.length) _ w1 w2 w3
    have e : T + d.train_losses.length +
        (ds.map (fun d => d.train_losses.length)).sum =
        T + (d.train_losses.length +
          (ds.map (fun d => d.train_losses.length)).sum) := by
      omega
    rw [e] at q1 q2 q3
    exact ⟨q1, q2, q3⟩

theorem fitLoop_global_step_mono {P : Type} (cfg : TrainConfig) (ne : Nat)
    (ds : List (EpochData P)) (st : Nat) (s : LearnerState P) :
    s.global_step ≤ (fitLoop cfg ne st ds s).global_step := by
  induction ds generalizing st s with
  | nil => exact Nat.le.refl
  | cons d ds ih =>
    simp only [fitLoop]
    refine le_trans ?_ (ih (st + 1) _)
    have t3 :=
      (track_example_fields st d.train_batch_rows d.val_batch_rows ne s).2.2.1
    have hv := (validation_epoch_fields d.val_batches
      (track_example st d.train_batch_rows d.val_batch_rows ne s)).2.1
    have ht := (training_epoch_fields cfg st d.train_losses d.params_at_end
      (validation_epoch d.val_batches
        (track_example st d.train_batch_rows d.val_batch_rows ne s))).2.1
    rw [ht, hv, t3]
    omega

theorem fitLoop_table_length {P : Type} (cfg : TrainConfig) (ne : Nat)
    (ds : List (EpochData P)) (st : Nat) (s : LearnerState P) :
    (fitLoop cfg ne st ds s).table.length =
      s.table.length +
        (ds.map (fun d =>
          min ne d.train_batch_rows + min ne d.val_batch_rows)).sum := by
  induction ds generalizing st s with
  | nil => simp [fitLoop]
  | cons d ds ih =>
    simp only [fitLoop, List.map_cons, List.sum_cons]
    rw [ih (st + 1)]
    have hv := (validation_epoch_fields d.val_batches
      (track_example st d.train_batch_rows d.val_batch_rows ne s)).2.2.2.2.2.2.2.2.2.1
    have ht := (training_epoch_fields cfg st d.train_losses d.params_at_end
      (validation_epoch d.val_batches
        (track_example st d.train_batch_rows d.val_batch_rows ne s))).2.2.2.1
    rw [ht, hv,
      (track_example_fields st d.train_batch_rows d.val_batch_rows ne s).1]
    omega

theorem fitLoop_flushes {P : Type} (cfg : TrainConfig) (ne : Nat)
    (ds : List (EpochData P)) (st : Nat) (s : LearnerState P) :
    (fitLoop cfg ne st ds s).flushes = s.flushes := by
  induction ds generalizing st s with
  | nil => rfl
  | cons d ds ih =>
    simp only [fitLoop]
    rw [ih (st + 1)]
    have hv := (validation_epoch_fields d.val_batches
      (track_example st d.train_batch_rows d.val_batch_rows ne s)).2.2.2.2.2.2.2.2.2.2
    have ht := (training_epoch_fields cfg st d.train_losses d.params_at_end
      (validation_epoch d.val_batches
        (track_example st d.train_batch_rows d.val_batch_rows ne s))).2.2.2.2
    rw [ht, hv,
      (track_example_fields st d.train_batch_rows d.val_batch_rows ne s).2.2.2.2.2.2.2.2.2.2]

/-- The best-model update branch of `training_epoch` when the epoch's average
training loss beats the best seen so far. -/
theorem training_epoch_best_pos {P : Type} (cfg : TrainConfig) (e : Nat)
    (losses : List ℚ) (p : P) (s : LearnerState P)
    (h2 : ltInf (lossAvg losses) s.best_val_loss = true) :
    (training_epoch cfg e losses p s).best_model_state_dict = p ∧
    (training_epoch cfg e losses p s).best_val_loss =
      some (lossAvg losses) := by
  have f4 := (foldl_processBatch_fields cfg losses s).2.2.2.1
  by_cases h1 : e % cfg.MODEL_SAVE_EPOCH_CNT = 0 <;>
    simp [training_epoch, h1, h2, f4]

/-- The best-model update branch of `training_epoch` when the epoch's average
training loss does not beat the best seen so far. -/
theorem training_epoch_best_neg {P : Type} (cfg : TrainConfig) (e : Nat)
    (losses : List ℚ) (p : P) (s : LearnerState P)
    (h2 : ltInf (lossAvg losses) s.best_val_loss = false) :
    (training_epoch cfg e losses p s).best_model_state_dict =
      s.best_model_state_dict ∧
    (training_epoch cfg e losses p s).best_val_loss = s.best_val_loss := by
  have f4 := (foldl_processBatch_fields cfg losses s).2.2.2.1
  have f5 := (foldl_processBatch_fields cfg losses s).2.2.2.2.1
  by_cases h1 : e % cfg.MODEL_SAVE_EPOCH_CNT = 0 <;>
    simp [training_epoch, h1, h2, f4, f5]

theorem lossAvg_single (x : ℚ) : lossAvg [x] = x := by
  simp [lossAvg]

/-- Claim C2: per training batch, an optimizer step, the optional scheduler
step and the gradient reset all occur if and only if `training_step` — whose
value when the batch's backward pass completes is still the pre-increment
one — is a multiple of the configured accumulation factor; otherwise the
gradients keep accumulating; and `training_step` advances by exactly 1 per
batch (and by the epoch's batch count per epoch) regardless of whether an
optimizer step occurred. -/
theorem C2_optimizer_step_iff {P : Type} (cfg : TrainConfig)
    (s : LearnerState P) (_hA : 1 ≤ cfg.GRAD_ACCUMULATION_STEPS) :
    (processBatch cfg s).training_step = s.training_step + 1 ∧
    ((processBatch cfg s).optimizer_steps = s.optimizer_steps + 1 ↔
      s.training_step % cfg.GRAD_ACCUMULATION_STEPS = 0) ∧
    ((processBatch cfg s).grad_accum = 0 ↔
      s.training_step % cfg.GRAD_ACCUMULATION_STEPS = 0) ∧
    ((processBatch cfg s).grad_accum = s.grad_accum + 1 ↔
      ¬ s.training_step % cfg.GRAD_ACCUMULATION_STEPS = 0) ∧
    (cfg.hasScheduler = true →
      ((processBatch cfg s).scheduler_steps = s.scheduler_steps + 1 ↔
        s.training_step % cfg.GRAD_ACCUMULATION_STEPS = 0)) ∧
    (∀ (e : Nat) (losses : List ℚ) (p : P),
      (training_epoch cfg e losses p s).training_step =
        s.training_step + losses.length) := by
  have hlast : ∀ (e : Nat) (losses : List ℚ) (p : P),
      (training_epoch cfg e losses p s).training_step =
        s.training_step + losses.length := by
    intro e losses p
    exact (training_epoch_fields cfg e losses p s).1
  by_cases h : s.training_step % cfg.GRAD_ACCUMULATION_STEPS = 0
  · rw [processBatch_eq_pos cfg s h]
    refine ⟨rfl, by simp [h], by simp [h], by simp [h], ?_, hlast⟩
    intro hS
    simp [h, hS]
  · rw [processBatch_eq_neg cfg s h]
    refine ⟨rfl, by simp [h], by simp [h], by simp [h], ?_, hlast⟩
    intro hS
    simp [h, hS]

/-- Claim C2, witness: a batch processed with accumulation factor 2 from the
initial state (`training_step = 1`). -/
theorem C2_optimizer_step_iff_witness :
    1 ≤ (2 : Nat) ∧
    (processBatch ⟨2, 1, true⟩ (initState (0 : Nat))).training_step =
      (initState (0 : Nat)).training_step + 1 :=
  ⟨by decide,
    (C2_optimizer_step_iff ⟨2, 1, true⟩ (initState 0) (by decide)).1⟩

/-- Claim C3: the best-model snapshot is replaced if and only if the epoch's
average training loss is strictly below the best seen so far
(`float('inf')` initially); the snapshot is a value copy of the live
parameters at replacement time, so later updates of the live parameters
leave it unchanged.  Concretely, over training losses [2.0, 1.5, 1.8, 1.2]
with epoch-end parameters 1,2,3,4, the retained snapshot is epoch 4's (loss
1.2), and after a further epoch with loss 1.3 and live parameters 5 the
snapshot is still 4 while the live parameters are 5. -/
theorem C3_best_model_retention :
    (∀ (P : Type) (cfg : TrainConfig) (e : Nat) (losses : List ℚ) (p : P)
        (s : LearnerState P),
      (ltInf (lossAvg losses) s.best_val_loss = true →
        (training_epoch cfg e losses p s).best_model_state_dict = p ∧
        (training_epoch cfg e losses p s).best_val_loss =
          some (lossAvg losses)) ∧
      (ltInf (lossAvg losses) s.best_val_loss = false →
        (training_epoch cfg e losses p s).best_model_state_dict =
          s.best_model_state_dict ∧
        (training_epoch cfg e losses p s).best_val_loss = s.best_val_loss) ∧
      (training_epoch cfg e losses p s).live_params = p) ∧
    ((training_epoch ⟨1, 1, false⟩ 4 [6/5] 4
        (training_epoch ⟨1, 1, false⟩ 3 [9/5] 3
          (training_epoch ⟨1, 1, false⟩ 2 [3/2] 2
            (training_epoch ⟨1, 1, false⟩ 1 [2] 1
              (initState (0 : Nat)))))).best_model_state_dict = 4 ∧
      (training_epoch ⟨1, 1, false⟩ 4 [6/5] 4
        (training_epoch ⟨1, 1, false⟩ 3 [9/5] 3
          (training_epoch ⟨1, 1, false⟩ 2 [3/2] 2
            (training_epoch ⟨1, 1, false⟩ 1 [2] 1
              (initState (0 : Nat)))))).best_val_loss = some (6/5) ∧
      (training_epoch ⟨1, 1, false⟩ 5 [13/10] 5
        (training_epoch ⟨1, 1, false⟩ 4 [6/5] 4
          (training_epoch ⟨1, 1, false⟩ 3 [9/5] 3
            (training_epoch ⟨1, 1, false⟩ 2 [3/2] 2
              (training_epoch ⟨1, 1, false⟩ 1 [2] 1
                (initState (0 : Nat))))))).best_model_state_dict = 4 ∧
      (training_epoch ⟨1, 1, false⟩ 5 [13/10] 5
        (training_epoch ⟨1, 1, false⟩ 4 [6/5] 4
          (training_epoch ⟨1, 1, false⟩ 3 [9/5] 3
            (training_epoch ⟨1, 1, false⟩ 2 [3/2] 2
              (training_epoch ⟨1, 1, false⟩ 1 [2] 1
                (initState (0 : Nat))))))).live_params = 5) := by
  constructor
  · intro P cfg e losses p s
    exact ⟨training_epoch_best_pos cfg e losses p s,
      training_epoch_best_neg cfg e losses p s,
      (training_epoch_fields cfg e losses p s).2.2.1⟩
  · have hc1 : ltInf (lossAvg [2])
        (initState (0 : Nat)).best_val_loss = true := rfl
    obtain ⟨b1, v1⟩ := training_epoch_best_pos ⟨1, 1, false⟩ 1 [2] 1
      (initState (0 : Nat)) hc1
    have hc2 : ltInf (lossAvg [3/2])
        (training_epoch ⟨1, 1, false⟩ 1 [2] 1
          (initState (0 : Nat))).best_val_loss = true := by
      rw [v1]
      simp only [ltInf, lossAvg_single, decide_eq_true_eq]
      norm_num
    obtain ⟨b2, v2⟩ := training_epoch_best_pos ⟨1, 1, false⟩ 2 [3/2] 2
      (training_epoch ⟨1, 1, false⟩ 1 [2] 1 (initState (0 : Nat))) hc2
    have hc3 : ltInf (lossAvg [9/5])
        (training_epoch ⟨1, 1, false⟩ 2 [3/2] 2
          (training_epoch ⟨1, 1, false⟩ 1 [2] 1
            (initState (0 : Nat)))).best_val_loss = false := by
      rw [v2]
      simp only [ltInf, lossAvg_single, decide_eq_false_iff_not]
      norm_num
    obtain ⟨b3, v3⟩ := training_epoch_best_neg ⟨1, 1, false⟩ 3 [9/5] 3
      (training_epoch ⟨1, 1, false⟩ 2 [3/2] 2
        (training_epoch ⟨1, 1, false⟩ 1 [2] 1 (initState (0 : Nat)))) hc3
    have hc4 : ltInf (lossAvg [6/5])
        (training_epoch ⟨1, 1, false⟩ 3 [9/5] 3
          (training_epoch ⟨1, 1, false⟩ 2 [3/2] 2
            (training_epoch ⟨1, 1, false⟩ 1 [2] 1
              (initState (0 : Nat))))).best_val_loss = true := by
      rw [v3, v2]
      simp only [ltInf, lossAvg_single, decide_eq_true_eq]
      norm_num
    obtain ⟨b4, v4⟩ := training_epoch_best_pos ⟨1, 1, false⟩ 4 [6/5] 4
      (training_epoch ⟨1, 1, false⟩ 3 [9/5] 3
        (training_epoch ⟨1, 1, false⟩ 2 [3/2] 2
          (training_epoch ⟨1, 1, false⟩ 1 [2] 1
            (initState (0 : Nat))))) hc4
    have hc5 : ltInf (lossAvg [13/10])
        (training_epoch ⟨1, 1, false⟩ 4 [6/5] 4
          (training_epoch ⟨1, 1, false⟩ 3 [9/5] 3
            (training_epoch ⟨1, 1, false⟩ 2 [3/2] 2
              (training_epoch ⟨1, 1, false⟩ 1 [2] 1
                (initState (0 : Nat)))))).best_val_loss = false := by
      rw [v4]
      simp only [ltInf, lossAvg_single, decide_eq_false_iff_not]
      norm_num
    obtain ⟨b5, v5⟩ := training_epoch_best_neg ⟨1, 1, false⟩ 5 [13/10] 5
      (training_epoch ⟨1, 1, false⟩ 4 [6/5] 4
        (training_epoch ⟨1, 1, false⟩ 3 [9/5] 3
          (training_epoch ⟨1, 1, false⟩ 2 [3/2] 2
            (training_epoch ⟨1, 1, false⟩ 1 [2] 1
              (initState (0 : Nat)))))) hc5
    refine ⟨b4, ?_, ?_, ?_⟩
    · rw [v4, lossAvg_single]
    · rw [b5, b4]
    · exact (training_epoch_fields ⟨1, 1, false⟩ 5 [13/10] 5 _).2.2.1

/-- Claim C3, witness: the first epoch (loss 2.0 against best = inf) replaces
the snapshot with that epoch's parameters. -/
theorem C3_best_model_retention_witness :
    ltInf (lossAvg [2]) (initState (0 : Nat)).best_val_loss = true ∧
    (training_epoch ⟨1, 1, false⟩ 1 [2] 1
      (initState (0 : Nat))).best_model_state_dict = 1 :=
  ⟨by decide,
    ((C3_best_model_retention.1 Nat ⟨1, 1, false⟩ 1 [2] 1
      (initState 0)).1 (by decide)).1⟩

/-- Claim C4: in the Validating state `global_step` advances by exactly 1 per
processed batch plus 1 at the epoch-summary emission, in the Training state
likewise by 1 per batch plus 1 at the summary, and across a whole `fit` run
`global_step` never decreases. -/
theorem C4_global_step_counters :
    (∀ (P : Type) (n : Nat) (s : LearnerState P),
      (validation_epoch n s).global_step = s.global_step + n + 1) ∧
    (∀ (P : Type) (cfg : TrainConfig) (e : Nat) (losses : List ℚ) (p : P)
        (s : LearnerState P),
      (training_epoch cfg e losses p s).global_step =
        s.global_step + losses.length + 1) ∧
    (∀ (P : Type) (cfg : TrainConfig) (ne st : Nat) (ds : List (EpochData P))
        (s : LearnerState P),
      s.global_step ≤ (fit cfg ne st ds s).global_step) := by
  refine ⟨?_, ?_, ?_⟩
  · intro P n s
    exact (validation_epoch_fields n s).2.1
  · intro P cfg e losses p s
    exact (training_epoch_fields cfg e losses p s).2.1
  · intro P cfg ne st ds s
    show s.global_step ≤ (fitLoop cfg ne st ds { s with table := [] }).global_step
    exact fitLoop_global_step_mono cfg ne ds st { s with table := [] }

/-- Claim C8, counterexample: a one-epoch run with tracking parameter
`num_examples = 2` whose first train batch has a single row adds only
1 + 2 = 3 tracking rows in that epoch, not 2 * num_examples = 4. -/
theorem C8_tracking_rows_cex :
    (fit ⟨1, 1, false⟩ 2 1 [⟨1, 3, 0, [1], 0⟩]
      (initState (0 : Nat))).table.length = 3 ∧
    ¬ ((3 : Nat) = 2 * 2) := by
  constructor
  · show (fitLoop ⟨1, 1, false⟩ 2 1 [⟨1, 3, 0, [1], 0⟩]
      { initState (0 : Nat) with table := [] }).table.length = 3
    rw [fitLoop_table_length]
    decide
  · decide

/-- Claim C8 (amended): per epoch the example-tracking table gains
`min(num_examples, first train-batch rows) + min(num_examples, first
validation-batch rows)` rows — which equals `2 * num_examples` exactly when
both first batches have at least `num_examples` rows — and over a whole
`fit` run the (freshly reset) table ends with the sum of those per-epoch
gains while the flush to the metrics collaborator happens exactly once,
after all epochs. -/
theorem C8_tracking_rows (P : Type) :
    (∀ (e tr vr ne : Nat) (s : LearnerState P),
      (track_example e tr vr ne s).table.length =
        s.table.length + (min ne tr + min ne vr)) ∧
    (∀ (e tr vr ne : Nat) (s : LearnerState P),
      ne ≤ tr → ne ≤ vr →
      (track_example e tr vr ne s).table.length =
        s.table.length + 2 * ne) ∧
    (∀ (cfg : TrainConfig) (ne st : Nat) (ds : List (EpochData P))
        (s : LearnerState P),
      (fit cfg ne st ds s).table.length =
        (ds.map (fun d =>
          min ne d.train_batch_rows + min ne d.val_batch_rows)).sum ∧
      (fit cfg ne st ds s).flushes = s.flushes + 1) := by
  refine ⟨?_, ?_, ?_⟩
  · intro e tr vr ne s
    exact (track_example_fields e tr vr ne s).1
  · intro e tr vr ne s h1 h2
    rw [(track_example_fields e tr vr ne s).1, Nat.min_eq_left h1,
      Nat.min_eq_left h2]
    omega
  · intro cfg ne st ds s
    constructor
    · show (fitLoop cfg ne st ds { s with table := [] }).table.length = _
      rw [fitLoop_table_length]
      simp
    · show (fitLoop cfg ne st ds { s with table := [] }).flushes + 1 = _
      rw [fitLoop_flushes]

/-- Claim C8, witness: with first batches of 4 rows each and
`num_examples = 2`, one tracking call adds exactly 2 * 2 rows. -/
theorem C8_tracking_rows_witness :
    (2 : Nat) ≤ 4 ∧
    (track_example 1 4 4 2 (initState (0 : Nat))).table.length =
      (initState (0 : Nat)).table.length + 2 * 2 :=
  ⟨by decide,
    (C8_tracking_rows Nat).2.1 1 4 4 2 (initState 0) (by decide) (by decide)⟩

/-- Claim C9: calling the dataloader builder with a tokenizer type other than
'wordlevel' or 'bpe' while no pretrained-tokenizer path is configured leaves
the local `tokenizer` unassigned, and the function fails at `tokenizer.save`
with an unbound-name error — it neither proceeds to build dataloaders nor
raises a dedicated configuration-validation error. -/
theorem C9_unknown_tokenizer_unbound (tt : String) (vs : Nat)
    (h1 : tt ≠ "wordlevel") (h2 : tt ≠ "bpe") :
    tokenizerPhase tt vs none =
      Except.error (PipelineError.unboundLocalError "tokenizer") ∧
    (∀ tok, tokenizerPhase tt vs none ≠ Except.ok tok) ∧
    (∀ msg, tokenizerPhase tt vs none ≠
      Except.error (PipelineError.configValidationError msg)) := by
  have he : tokenizerPhase tt vs none =
      Except.error (PipelineError.unboundLocalError "tokenizer") := by
    simp [tokenizerPhase, h1, h2]
  exact ⟨he, fun tok => by simp [he], fun msg => by simp [he]⟩

/-- Claim C9, witness: tokenizer type 'char' with no pretrained path. -/
theorem C9_unknown_tokenizer_unbound_witness :
    ("char" : String) ≠ "wordlevel" ∧
    tokenizerPhase "char" 1000 none =
      Except.error (PipelineError.unboundLocalError "tokenizer") :=
  ⟨by decide,
    (C9_unknown_tokenizer_unbound "char" 1000 (by decide) (by decide)).1⟩

/-- Claim C10, counterexample: with accumulation factor 2 and two epochs of 3
batches each, epoch 2's batch count (3) is not a multiple of 2, yet at that
epoch's end the accumulated gradients have just been applied and zeroed: the
optimizer stepped at the epoch's final batch (the run-global 6th, at
`training_step` 6), so nothing carries into a next epoch — refuting the
claim's "for every epoch whose batch count is not a multiple of the factor". -/
theorem C10_carry_over_cex :
    (training_epoch ⟨2, 1, false⟩ 2 [1, 1, 1] 2
      (training_epoch ⟨2, 1, false⟩ 1 [1, 1, 1] 1
        (initState (0 : Nat)))).grad_accum = 0 ∧
    (training_epoch ⟨2, 1, false⟩ 2 [1, 1, 1] 2
      (training_epoch ⟨2, 1, false⟩ 1 [1, 1, 1] 1
        (initState (0 : Nat)))).optimizer_steps = 3 ∧
    ¬ ((3 : Nat) % 2 = 0) := by
  have h1 := training_epoch_counters (P := Nat) ⟨2, 1, false⟩ 1 [1, 1, 1] 1
    0 0 (initState 0) rfl (by decide) (by decide)
  have h2 := training_epoch_counters (P := Nat) ⟨2, 1, false⟩ 2 [1, 1, 1] 2
    3 0 _ (by rw [h1.1]; decide) (by rw [h1.2.1]; decide)
    (by rw [h1.2.2]; decide)
  refine ⟨?_, ?_, by decide⟩
  · rw [h2.2.1]
    decide
  · rw [h2.2.2]
    decide

/-- Claim C10 (amended): `training_step` persists across epochs (1 plus the
total number of batches processed so far), and optimizer-step boundaries are
determined by that run-global count: over any `fit` run from a fresh Learner
state, the optimizer has stepped once per multiple of the accumulation
factor among total batch counts, and the gradients left accumulated at run
end are `total_batches % factor` — so gradients carry over an epoch boundary
exactly when the cumulative batch count at that boundary is not a multiple
of the factor, regardless of the epoch's own batch count. -/
theorem C10_run_global_boundaries {P : Type} (cfg : TrainConfig)
    (_hA : 1 ≤ cfg.GRAD_ACCUMULATION_STEPS) (ne st : Nat)
    (ds : List (EpochData P)) (p : P) :
    (fit cfg ne st ds (initState p)).training_step =
      (ds.map (fun d => d.train_losses.length)).sum + 1 ∧
    (fit cfg ne st ds (initState p)).grad_accum =
      (ds.map (fun d => d.train_losses.length)).sum %
        cfg.GRAD_ACCUMULATION_STEPS ∧
    (fit cfg ne st ds (initState p)).optimizer_steps =
      (ds.map (fun d => d.train_losses.length)).sum /
        cfg.GRAD_ACCUMULATION_STEPS := by
  have h0 := fitLoop_counters cfg ne ds st 0 0
    ({ initState p with table := [] } : LearnerState P) rfl
    (Nat.zero_mod _).symm (by simp [initState])
  simp only [Nat.zero_add] at h0
  exact h0

/-- Claim C10, witness: two epochs of three batches with accumulation factor
2: the run ends with `training_step = 7`, zero leftover gradient and three
optimizer steps. -/
theorem C10_run_global_boundaries_witness :
    1 ≤ (2 : Nat) ∧
    (fit ⟨2, 1, false⟩ 2 1
      ([⟨0, 0, 0, [1, 1, 1], 0⟩, ⟨0, 0, 0, [1, 1, 1], 0⟩] :
        List (EpochData Nat))
      (initState 0)).training_step =
      (([⟨0, 0, 0, [1, 1, 1], 0⟩, ⟨0, 0, 0, [1, 1, 1], 0⟩] :
        List (EpochData Nat)).map (fun d => d.train_losses.length)).sum + 1 :=
  ⟨by decide,
    (C10_run_global_boundaries ⟨2, 1, false⟩ (by decide) 2 1 _ 0).1⟩
